import Mathlib

/-!
Shallow embedding of the filtering/aggregation logic of
`cricket_dashboard.py` (a pandas dashboard over two tables:
per-match records and per-ball records), together with proofs of the
specification's claims about it.

Tables are embedded as Lean lists of records; dates as integers (only
their ordering matters); pandas string operations are embedded as
structurally recursive functions over `List Char`.
-/

/-- A row of `each_match_records.csv` as loaded, before the
`fillna({'winner_runs': 0, 'winner_wickets': 0, 'man_of_match': 'No Award'})`
preprocessing step: the three fillable columns may be missing. -/
structure RawMatchRecord where
  match_number : Int
  season : String
  date : Int
  venue : String
  team1 : String
  team2 : String
  toss_won : String
  toss_decision : String
  winner : String
  winner_runs : Option Int
  winner_wickets : Option Int
  man_of_match : Option String
deriving DecidableEq

/-- A match record after preprocessing (line 20 of the script). -/
structure MatchRecord where
  match_number : Int
  season : String
  date : Int
  venue : String
  team1 : String
  team2 : String
  toss_won : String
  toss_decision : String
  winner : String
  winner_runs : Int
  winner_wickets : Int
  man_of_match : String
deriving DecidableEq

/-- Line 20: `each_match_records_df.fillna({'winner_runs': 0,
'winner_wickets': 0, 'man_of_match': 'No Award'}, inplace=True)`. -/
def fillna (r : RawMatchRecord) : MatchRecord :=
  { match_number := r.match_number
    season := r.season
    date := r.date
    venue := r.venue
    team1 := r.team1
    team2 := r.team2
    toss_won := r.toss_won
    toss_decision := r.toss_decision
    winner := r.winner
    winner_runs := r.winner_runs.getD 0
    winner_wickets := r.winner_wickets.getD 0
    man_of_match := r.man_of_match.getD "No Award" }

/-- A row of `each_ball_records.csv` after preprocessing: the script
(line 23) derives `over_number` from the `over` string. The `outcome`
column may be missing (pandas NaN), embedded as `Option`. -/
structure BallEvent where
  match_no : Int
  over : String
  over_number : Int
  batter : String
  bowler : String
  score : Int
  outcome : Option String
deriving DecidableEq

/-- Python `str.split('.')`: split a character list at every dot.
Always returns at least one (possibly empty) segment. -/
def splitDot : List Char → List (List Char)
  | [] => [[]]
  | c :: cs =>
    if c = '.' then [] :: splitDot cs
    else
      match splitDot cs with
      | [] => [[c]]
      | g :: gs => (c :: g) :: gs

/-- One step of decimal-digit accumulation. -/
def digitVal (c : Char) : Option Nat :=
  if c.isDigit then some (c.toNat - 48) else none

/-- Accumulate decimal digits left to right; fails on a non-digit. -/
def parseDigitsAux : Nat → List Char → Option Nat
  | acc, [] => some acc
  | acc, c :: cs =>
    match digitVal c with
    | some d => parseDigitsAux (10 * acc + d) cs
    | none => none

/-- Python `int(...)` as used by pandas `astype(int)` on a string column:
an optional sign followed by one or more decimal digits; anything else
is a parse failure (`none`). -/
def str_to_int : List Char → Option Int
  | [] => none
  | '-' :: cs => if cs = [] then none else (parseDigitsAux 0 cs).map (fun n => -(n : Int))
  | '+' :: cs => if cs = [] then none else (parseDigitsAux 0 cs).map (fun n => (n : Int))
  | cs => (parseDigitsAux 0 cs).map (fun n => (n : Int))

/-- Line 23: `each_ball_records_df['over'].str.split('.').str[0].astype(int)` —
the integer parse of the segment before the first dot; `none` models the
pandas conversion error. -/
def over_number (over : String) : Option Int :=
  str_to_int ((splitDot over.data).headD [])

/-- The boolean mask of lines 62-66: season membership, inclusive date
range (`between` is inclusive on both ends), and team membership of
either team. -/
def match_keep (seasons teams : List String) (start_date end_date : Int)
    (m : MatchRecord) : Bool :=
  seasons.contains m.season &&
    (decide (start_date ≤ m.date) && decide (m.date ≤ end_date)) &&
    (teams.contains m.team1 || teams.contains m.team2)

/-- Lines 62-66: the filtered match table. -/
def filtered_match_df (ms : List MatchRecord) (seasons teams : List String)
    (start_date end_date : Int) : List MatchRecord :=
  ms.filter (match_keep seasons teams start_date end_date)

/-- Line 67: `each_ball_records_df[each_ball_records_df["match_no"].isin(
filtered_match_df["match_number"])]`. -/
def filtered_ball_df (balls : List BallEvent) (fm : List MatchRecord) : List BallEvent :=
  balls.filter (fun b => (fm.map MatchRecord.match_number).contains b.match_no)

/-- The Filter Engine of the spec: both filtering stages together, as a
pair (filtered ms, filtered balls). -/
def filter_engine (ms : List MatchRecord) (balls : List BallEvent)
    (seasons teams : List String) (start_date end_date : Int) :
    List MatchRecord × List BallEvent :=
  (filtered_match_df ms seasons teams start_date end_date,
   filtered_ball_df balls (filtered_match_df ms seasons teams start_date end_date))

/-- Line 159: `filtered_match_df[filtered_match_df['winner_runs'] > 0]`. -/
def win_by_runs (fm : List MatchRecord) : List MatchRecord :=
  fm.filter (fun m => decide (0 < m.winner_runs))

/-- Sample match record used by concrete witnesses (the spec's example
match: number 1, season "2020", teams "A" and "B"). -/
def mExample : MatchRecord :=
  { match_number := 1, season := "2020", date := 61, venue := "V"
    team1 := "A", team2 := "B", toss_won := "A", toss_decision := "bat"
    winner := "A", winner_runs := 5, winner_wickets := 0, man_of_match := "P" }

/-- Sample ball event used by concrete witnesses. -/
def bExample : BallEvent :=
  { match_no := 1, over := "0.1", over_number := 0, batter := "X"
    bowler := "Y", score := 1, outcome := some "caught out" }

/-- Claim C1: a match record is retained by the Filter Engine iff its
season is in the selected seasons, its date lies in the inclusive range
[start, end], and one of its two teams is in the selected teams. -/
theorem C1_match_filter_retention (ms : List MatchRecord)
    (seasons teams : List String) (start_date end_date : Int) (m : MatchRecord) :
    m ∈ filtered_match_df ms seasons teams start_date end_date ↔
      m ∈ ms ∧ m.season ∈ seasons ∧
        (start_date ≤ m.date ∧ m.date ≤ end_date) ∧
        (m.team1 ∈ teams ∨ m.team2 ∈ teams) := by
  simp [filtered_match_df, match_keep, List.mem_filter, and_assoc]

/-- Claim C1, witness: the spec's example — match 1 (season "2020",
teams "A"/"B") is retained for seasons {"2020"}, teams {"A"}, and a
date range containing its date. -/
theorem C1_match_filter_retention_witness :
    mExample ∈ filtered_match_df [mExample] ["2020"] ["A"] 0 365 :=
  (C1_match_filter_retention [mExample] ["2020"] ["A"] 0 365 mExample).mpr
    (by refine ⟨by decide, by decide, by decide, ?_⟩; left; decide)

/-- Claim C8: an empty season selection or an empty team selection
retains no match records (and the filter is a total function, so no
error is possible). -/
theorem C8_empty_selection_empty_result (ms : List MatchRecord)
    (seasons teams : List String) (start_date end_date : Int)
    (h : seasons = [] ∨ teams = []) :
    filtered_match_df ms seasons teams start_date end_date = [] := by
  apply List.filter_eq_nil_iff.mpr
  intro m _
  rcases h with h | h <;> subst h <;> simp [match_keep]

/-- Claim C8, witness: with one candidate match and an empty season
selection, the filter returns the empty table. -/
theorem C8_empty_selection_empty_result_witness :
    (([] : List String) = [] ∨ (["A"] : List String) = []) ∧
      filtered_match_df [mExample] [] ["A"] 0 365 = [] :=
  ⟨Or.inl rfl, C8_empty_selection_empty_result [mExample] [] ["A"] 0 365 (Or.inl rfl)⟩

/-- Claim C9: an inverted date range (start strictly after end) retains
no match records (and the filter is a total function, so no error is
possible). -/
theorem C9_inverted_range_empty_result (ms : List MatchRecord)
    (seasons teams : List String) (start_date end_date : Int)
    (h : end_date < start_date) :
    filtered_match_df ms seasons teams start_date end_date = [] := by
  apply List.filter_eq_nil_iff.mpr
  intro m _
  simp only [match_keep, Bool.and_eq_true, Bool.or_eq_true, decide_eq_true_eq,
    not_and, and_imp]
  intro _ h1 h2
  omega

/-- Claim C9, witness: with the range [365, 0] (start after end) the
filter returns the empty table. -/
theorem C9_inverted_range_empty_result_witness :
    (0 : Int) < 365 ∧ filtered_match_df [mExample] ["2020"] ["A"] 365 0 = [] :=
  ⟨by omega, C9_inverted_range_empty_result [mExample] ["2020"] ["A"] 365 0 (by omega)⟩

/-- Filtering a list twice with the same boolean mask equals filtering
it once. -/
theorem filter_self_idem {α : Type} (p : α → Bool) (l : List α) :
    (l.filter p).filter p = l.filter p := by
  rw [List.filter_filter]
  apply List.filter_congr
  intro a _
  cases p a <;> rfl

/-- Claim C2: a ball event is retained iff its match identifier equals
the match number of some retained match record; hence the retained ball
events' match identifiers form a subset of the retained match records'
match numbers. -/
theorem C2_ball_filter_retention (ms : List MatchRecord) (balls : List BallEvent)
    (seasons teams : List String) (start_date end_date : Int) :
    (∀ b, b ∈ filtered_ball_df balls (filtered_match_df ms seasons teams start_date end_date) ↔
        b ∈ balls ∧
          b.match_no ∈ (filtered_match_df ms seasons teams start_date end_date).map
            MatchRecord.match_number) ∧
    (filtered_ball_df balls (filtered_match_df ms seasons teams start_date end_date)).map
        BallEvent.match_no ⊆
      (filtered_match_df ms seasons teams start_date end_date).map
        MatchRecord.match_number := by
  have H : ∀ b, b ∈ filtered_ball_df balls
      (filtered_match_df ms seasons teams start_date end_date) ↔
      b ∈ balls ∧ b.match_no ∈ (filtered_match_df ms seasons teams start_date end_date).map
        MatchRecord.match_number := by
    intro b
    simp [filtered_ball_df, List.mem_filter]
  refine ⟨H, ?_⟩
  intro x hx
  rcases List.mem_map.mp hx with ⟨b, hb, rfl⟩
  exact ((H b).mp hb).2

/-- Claim C2, witness: the spec's example ball (match 1) is retained
when match 1 is retained. -/
theorem C2_ball_filter_retention_witness :
    bExample ∈ filtered_ball_df [bExample]
      (filtered_match_df [mExample] ["2020"] ["A"] 0 365) :=
  ((C2_ball_filter_retention [mExample] [bExample] ["2020"] ["A"] 0 365).1 bExample).mpr
    ⟨by decide, by decide⟩

/-- Claim C7: the Filter Engine is idempotent — filtering its own
output with the same seasons, teams and date range returns that output
unchanged. -/
theorem C7_filter_engine_idempotent (ms : List MatchRecord) (balls : List BallEvent)
    (seasons teams : List String) (start_date end_date : Int) :
    filter_engine (filter_engine ms balls seasons teams start_date end_date).1
        (filter_engine ms balls seasons teams start_date end_date).2
        seasons teams start_date end_date
      = filter_engine ms balls seasons teams start_date end_date := by
  have hm : filtered_match_df (filtered_match_df ms seasons teams start_date end_date)
      seasons teams start_date end_date
      = filtered_match_df ms seasons teams start_date end_date := filter_self_idem _ _
  have hb : ∀ fm, filtered_ball_df (filtered_ball_df balls fm) fm
      = filtered_ball_df balls fm := fun fm => filter_self_idem _ _
  simp only [filter_engine, hm, hb]

/-- Claim C7, witness: idempotence at a concrete one-match, one-ball
input. -/
theorem C7_filter_engine_idempotent_witness :
    filter_engine (filter_engine [mExample] [bExample] ["2020"] ["A"] 0 365).1
        (filter_engine [mExample] [bExample] ["2020"] ["A"] 0 365).2
        ["2020"] ["A"] 0 365
      = filter_engine [mExample] [bExample] ["2020"] ["A"] 0 365 :=
  C7_filter_engine_idempotent [mExample] [bExample] ["2020"] ["A"] 0 365

/-- Python `str.lower()`, characterwise. -/
def toLowerChars (s : List Char) : List Char := s.map Char.toLower

/-- Contiguous-substring test: does `pat` occur inside `s`? This embeds
`Series.str.contains` for a pattern without regex metacharacters. -/
def hasSubstr (pat : List Char) : List Char → Bool
  | [] => pat.isPrefixOf ([] : List Char)
  | c :: cs => pat.isPrefixOf (c :: cs) || hasSubstr pat cs

/-- Line 120, one cell of the mask
`filtered_ball_df['outcome'].str.contains('out', case=False, na=False)`:
a missing outcome gives `false`; otherwise a case-insensitive substring
test for "out". -/
def outcome_is_wicket : Option String → Bool
  | none => false
  | some s => hasSubstr "out".data (toLowerChars s.data)

/-- Line 120: the wicket subset of the filtered ball table. -/
def wickets_df (balls : List BallEvent) : List BallEvent :=
  balls.filter (fun b => outcome_is_wicket b.outcome)

/-- Distinct elements in first-encounter order (the key order produced
by the hash-table based pandas groupers before any sort). -/
def distinctInOrder {α : Type} [BEq α] (l : List α) : List α :=
  l.foldl (fun acc x => if acc.contains x then acc else acc ++ [x]) []

/-- Group keys of `groupby('over_number')`: distinct keys, sorted
ascending (pandas sorts group keys). -/
def groupKeys (l : List Int) : List Int :=
  (distinctInOrder l).mergeSort (fun a b => decide (a ≤ b))

/-- Line 130: `wickets_df.groupby('over_number').size()` — for each over
number occurring in the wicket subset, the number of wicket events in
that over. -/
def wicket_counts (balls : List BallEvent) : List (Int × Nat) :=
  (groupKeys ((wickets_df balls).map BallEvent.over_number)).map
    (fun o => (o, ((wickets_df balls).filter (fun b => b.over_number == o)).length))

/-- `hasSubstr` is a genuine substring test. -/
theorem hasSubstr_iff (pat s : List Char) :
    hasSubstr pat s = true ↔ ∃ u v, s = u ++ pat ++ v := by
  induction s with
  | nil =>
    simp only [hasSubstr, List.isPrefixOf_iff_prefix, List.prefix_nil]
    constructor
    · rintro rfl
      exact ⟨[], [], rfl⟩
    · rintro ⟨u, v, h⟩
      have hl := congrArg List.length h
      simp only [List.length_nil, List.length_append] at hl
      have hp : pat.length = 0 := by omega
      exact List.length_eq_zero.mp hp
  | cons c cs ih =>
    simp only [hasSubstr, Bool.or_eq_true, ih, List.isPrefixOf_iff_prefix]
    constructor
    · rintro (h | ⟨u, v, rfl⟩)
      · rcases h with ⟨v, hv⟩
        exact ⟨[], v, by rw [List.nil_append, hv]⟩
      · exact ⟨c :: u, v, rfl⟩
    · rintro ⟨u, v, huv⟩
      cases u with
      | nil =>
        left
        exact ⟨v, by simpa using huv.symm⟩
      | cons d u =>
        right
        rcases List.cons_eq_cons.mp huv with ⟨rfl, h2⟩
        exact ⟨u, v, h2⟩

/-- Folding the accumulate-if-new step collects exactly the members of
the accumulator and of the traversed list. -/
theorem mem_foldl_addUnique {α : Type} [BEq α] [LawfulBEq α] (l : List α) (acc : List α)
    (x : α) :
    x ∈ l.foldl (fun a y => if a.contains y then a else a ++ [y]) acc ↔
      x ∈ acc ∨ x ∈ l := by
  induction l generalizing acc with
  | nil => simp
  | cons a l ih =>
    simp only [List.foldl_cons]
    by_cases h : acc.contains a
    · rw [if_pos h, ih]
      have ha : a ∈ acc := by simpa using h
      constructor
      · rintro (hx | hx)
        · exact Or.inl hx
        · exact Or.inr (List.mem_cons_of_mem _ hx)
      · rintro (hx | hx)
        · exact Or.inl hx
        · rcases List.mem_cons.mp hx with rfl | hx
          · exact Or.inl ha
          · exact Or.inr hx
    · rw [if_neg h, ih]
      simp only [List.mem_append, List.mem_cons]
      tauto

/-- `distinctInOrder` preserves membership. -/
theorem mem_distinctInOrder {α : Type} [BEq α] [LawfulBEq α] (l : List α) (x : α) :
    x ∈ distinctInOrder l ↔ x ∈ l := by
  rw [distinctInOrder, mem_foldl_addUnique]
  simp

/-- Claim C10: a ball event whose outcome is missing is never classified
as a wicket — the mask value is `false` (never an error), so the event
is excluded from `wickets_df` and from every wicket aggregate. -/
theorem C10_missing_outcome_not_wicket (balls : List BallEvent) (b : BallEvent)
    (h : b.outcome = none) : b ∉ wickets_df balls := by
  intro hb
  have h2 := (List.mem_filter.mp hb).2
  rw [h] at h2
  simp [outcome_is_wicket] at h2

/-- Sample ball event with a missing outcome, for the C10 witness. -/
def bMissing : BallEvent := { bExample with outcome := none }

/-- Claim C10, witness: a concrete ball event with missing outcome is
excluded from the wicket subset. -/
theorem C10_missing_outcome_not_wicket_witness :
    bMissing.outcome = none ∧ bMissing ∉ wickets_df [bMissing] :=
  ⟨rfl, C10_missing_outcome_not_wicket [bMissing] bMissing rfl⟩

/-- Claim C5: the Wicket Distribution subset keeps exactly the ball
events whose outcome text contains "out" ignoring case ("caught out"
counts, "no run" does not), and `wicket_counts` gives, per over number
occurring in that subset, the number of such events in that over. -/
theorem C5_wicket_distribution (balls : List BallEvent) :
    (∀ b, b ∈ wickets_df balls ↔
        b ∈ balls ∧ ∃ s, b.outcome = some s ∧
          ∃ u v, toLowerChars s.data = u ++ "out".data ++ v) ∧
    outcome_is_wicket (some "caught out") = true ∧
    outcome_is_wicket (some "no run") = false ∧
    (∀ o n, (o, n) ∈ wicket_counts balls ↔
        o ∈ (wickets_df balls).map BallEvent.over_number ∧
        n = ((wickets_df balls).filter (fun b => b.over_number == o)).length) := by
  refine ⟨?_, by decide, by decide, ?_⟩
  · intro b
    rw [wickets_df, List.mem_filter]
    apply and_congr_right
    intro _
    cases hb : b.outcome with
    | none => simp [outcome_is_wicket]
    | some s => simp [outcome_is_wicket, hasSubstr_iff]
  · intro o n
    rw [wicket_counts]
    constructor
    · intro h
      rcases List.mem_map.mp h with ⟨k, hk, hkeq⟩
      rcases Prod.mk.injEq .. ▸ hkeq with ⟨rfl, rfl⟩
      refine ⟨?_, rfl⟩
      rw [groupKeys, (List.mergeSort_perm _ _).mem_iff, mem_distinctInOrder] at hk
      exact hk
    · rintro ⟨ho, rfl⟩
      apply List.mem_map.mpr
      refine ⟨o, ?_, rfl⟩
      rw [groupKeys, (List.mergeSort_perm _ _).mem_iff, mem_distinctInOrder]
      exact ho

/-- A dot-free character list is returned by `splitDot` as a single
segment. -/
theorem splitDot_no_dot (u : List Char) (h : '.' ∉ u) : splitDot u = [u] := by
  induction u with
  | nil => rfl
  | cons c cs ih =>
    have hc : ¬(c = '.') := fun hc => h (hc ▸ List.mem_cons_self c cs)
    have hcs : '.' ∉ cs := fun hm => h (List.mem_cons_of_mem _ hm)
    simp only [splitDot]
    rw [if_neg hc, ih hcs]

/-- Splitting at the first dot: the dot-free part before it becomes the
first segment. -/
theorem splitDot_append (u v : List Char) (h : '.' ∉ u) :
    splitDot (u ++ '.' :: v) = u :: splitDot v := by
  induction u with
  | nil =>
    simp only [List.nil_append, splitDot]
    simp
  | cons c cs ih =>
    have hc : ¬(c = '.') := fun hc => h (hc ▸ List.mem_cons_self c cs)
    have hcs : '.' ∉ cs := fun hm => h (List.mem_cons_of_mem _ hm)
    simp only [List.cons_append, splitDot]
    rw [if_neg hc]
    simp only [List.append_eq]
    rw [ih hcs]

/-- Claim C3, counterexample: the claim says the preprocessor fails
with a parse error on an over string missing the decimal separator, but
the code parses "14" (no separator: the split yields the single segment
"14") successfully to the over number 14. -/
theorem C3_missing_separator_counterexample : over_number "14" = some 14 := by
  decide

/-- Claim C3 (amended): the over number is the integer parse of the
segment before the first decimal point ("14.3" yields 14); an over
string with no separator is parsed whole, succeeding on a plain integer
such as "14"; a parse failure occurs exactly when that leading segment
is not an integer literal (e.g. "abc"). -/
theorem C3_over_number_amended :
    over_number "14.3" = some 14 ∧ over_number "14" = some 14 ∧
      over_number "abc" = none ∧
      ∀ (s t : String), '.' ∉ s.data →
        over_number (s ++ "." ++ t) = str_to_int s.data ∧
          over_number s = str_to_int s.data := by
  refine ⟨by decide, by decide, by decide, ?_⟩
  intro s t h
  constructor
  · rw [over_number]
    have hdot : ("." : String).data = ['.'] := rfl
    have hdata : (s ++ "." ++ t).data = s.data ++ '.' :: t.data := by
      rw [String.data_append, String.data_append, hdot, List.append_assoc]
      rfl
    rw [hdata, splitDot_append _ _ h]
    rfl
  · rw [over_number, splitDot_no_dot _ h]
    rfl

/-- Claim C3 (amended), witness: instantiated at the dot-free segment
"14" and tail "3", so "14.3" parses to the parse of "14", and "14"
itself parses with no error. -/
theorem C3_over_number_amended_witness :
    ('.' ∉ "14".data) ∧
      over_number ("14" ++ "." ++ "3") = str_to_int "14".data ∧
      over_number "14" = str_to_int "14".data :=
  ⟨by decide, (C3_over_number_amended.2.2.2 "14" "3" (by decide)).1,
    (C3_over_number_amended.2.2.2 "14" "3" (by decide)).2⟩

/-- Sample raw match record with a missing winner-by-runs margin, for
the C6 witness. -/
def rMissing : RawMatchRecord :=
  { match_number := 2, season := "2020", date := 70, venue := "V"
    team1 := "A", team2 := "B", toss_won := "B", toss_decision := "field"
    winner := "A", winner_runs := none, winner_wickets := some 7
    man_of_match := none }

/-- Claim C6: a missing winner-by-runs margin is replaced by 0 by the
preprocessor (never an error); the Win Margin by Runs aggregate keeps
exactly the matches with margin strictly greater than 0, so every match
with margin 0 — in particular one whose margin was missing — is
excluded. -/
theorem C6_winner_runs_fill_and_filter (r : RawMatchRecord) (fm : List MatchRecord)
    (m : MatchRecord) :
    (r.winner_runs = none → (fillna r).winner_runs = 0) ∧
    (m ∈ win_by_runs fm ↔ m ∈ fm ∧ 0 < m.winner_runs) ∧
    (m.winner_runs = 0 → m ∉ win_by_runs fm) := by
  refine ⟨?_, ?_, ?_⟩
  · intro h
    simp [fillna, h]
  · simp [win_by_runs, List.mem_filter]
  · intro h hm
    have h2 := (List.mem_filter.mp hm).2
    rw [h] at h2
    simp at h2

/-- Claim C6, witness: a concrete raw record with missing margin is
filled with 0 and excluded from the Win Margin by Runs aggregate. -/
theorem C6_winner_runs_fill_and_filter_witness :
    rMissing.winner_runs = none ∧ (fillna rMissing).winner_runs = 0 ∧
      fillna rMissing ∉ win_by_runs [fillna rMissing] :=
  ⟨rfl, (C6_winner_runs_fill_and_filter rMissing [] (fillna rMissing)).1 rfl,
    (C6_winner_runs_fill_and_filter rMissing [fillna rMissing]
      (fillna rMissing)).2.2 (by decide)⟩

/-- The comparator `value_counts` sorts with: larger count first. -/
def countsLe (a b : String × Nat) : Bool := decide (b.2 ≤ a.2)

/-- `Series.value_counts()`: the distinct values in first-encounter
order, each paired with its appearance count, stably sorted by
descending count. -/
def value_counts (names : List String) : List (String × Nat) :=
  ((distinctInOrder names).map (fun n => (n, names.count n))).mergeSort countsLe

/-- Line 180: `filtered_ball_df['batter'].value_counts().head(10)`. -/
def top_batters (balls : List BallEvent) : List (String × Nat) :=
  (value_counts (balls.map BallEvent.batter)).take 10

/-- Line 187: `filtered_ball_df['bowler'].value_counts().head(10)`. -/
def top_bowlers (balls : List BallEvent) : List (String × Nat) :=
  (value_counts (balls.map BallEvent.bowler)).take 10

/-- What claim C4 asserts of a top-10 list drawn from a list of names:
at most 10 entries; ordered by descending count; every entry is a name
from the list with its appearance count; no discarded entry of the full
tally out-counts a kept one; every name is tallied; and an equal-count
pair listed in first-encounter order stays in that order in the sorted
tally. -/
def Top10Spec (names : List String) (top : List (String × Nat)) : Prop :=
  top.length ≤ 10 ∧
  top.Pairwise (fun a b => b.2 ≤ a.2) ∧
  (∀ p ∈ top, p.1 ∈ names ∧ p.2 = names.count p.1) ∧
  (∀ p ∈ top, ∀ q ∈ (value_counts names).drop 10, q.2 ≤ p.2) ∧
  (∀ n ∈ names, ∃ p ∈ value_counts names, p.1 = n) ∧
  (∀ a b : String × Nat, a.2 = b.2 →
    List.Sublist [a, b] ((distinctInOrder names).map (fun n => (n, names.count n))) →
    List.Sublist [a, b] (value_counts names))

/-- `countsLe` is transitive. -/
theorem countsLe_trans (a b c : String × Nat) (h1 : countsLe a b = true)
    (h2 : countsLe b c = true) : countsLe a c = true := by
  simp only [countsLe, decide_eq_true_eq] at h1 h2 ⊢
  omega

/-- `countsLe` is total. -/
theorem countsLe_total (a b : String × Nat) : (countsLe a b || countsLe b a) = true := by
  simp only [countsLe, Bool.or_eq_true, decide_eq_true_eq]
  omega

/-- The first ten entries of `value_counts` satisfy everything claim C4
asserts of a top-10 list. -/
theorem value_counts_take10_spec (names : List String) :
    Top10Spec names ((value_counts names).take 10) := by
  have hsorted : (value_counts names).Pairwise (fun a b => countsLe a b = true) :=
    List.sorted_mergeSort countsLe_trans countsLe_total _
  have hperm :=
    List.mergeSort_perm ((distinctInOrder names).map (fun n => (n, names.count n))) countsLe
  refine ⟨?_, ?_, ?_, ?_, ?_, ?_⟩
  · rw [List.length_take]
    exact inf_le_left
  · exact (List.Pairwise.sublist (List.take_sublist 10 (value_counts names)) hsorted).imp
      (fun h => by simpa [countsLe] using h)
  · intro p hp
    have hpv : p ∈ value_counts names := (List.take_sublist _ _).subset hp
    have hpc : p ∈ (distinctInOrder names).map (fun n => (n, names.count n)) :=
      hperm.mem_iff.mp hpv
    rcases List.mem_map.mp hpc with ⟨n, hn, rfl⟩
    exact ⟨(mem_distinctInOrder _ _).mp hn, rfl⟩
  · intro p hp q hq
    have h2 : ((value_counts names).take 10 ++ (value_counts names).drop 10).Pairwise
        (fun a b => countsLe a b = true) := by
      rw [List.take_append_drop]
      exact hsorted
    have h3 := (List.pairwise_append.mp h2).2.2 p hp q hq
    simpa [countsLe] using h3
  · intro n hn
    refine ⟨(n, names.count n), ?_, rfl⟩
    simp only [value_counts]
    rw [hperm.mem_iff]
    exact List.mem_map_of_mem _ ((mem_distinctInOrder _ _).mpr hn)
  · intro a b hab hsub
    refine List.sublist_mergeSort countsLe_trans countsLe_total ?_ hsub
    simp [List.pairwise_cons, countsLe, hab]

/-- Claim C4: for every filtered ball table, the Top Players aggregate
returns the at most 10 most frequent batter names — and likewise bowler
names — ordered by descending appearance count, ties keeping the order
in which the names are first encountered. -/
theorem C4_top_players (balls : List BallEvent) :
    Top10Spec (balls.map BallEvent.batter) (top_batters balls) ∧
    Top10Spec (balls.map BallEvent.bowler) (top_bowlers balls) :=
  ⟨value_counts_take10_spec _, value_counts_take10_spec _⟩

/-- Concrete ball list for the C4 witness: two batters with tied
counts, "Beta" encountered first. -/
def ballsTie : List BallEvent :=
  [ { bExample with batter := "Beta", bowler := "P" },
    { bExample with batter := "Alpha", bowler := "Q" },
    { bExample with batter := "Alpha", bowler := "P" },
    { bExample with batter := "Beta", bowler := "Q" } ]

/-- Claim C4, witness: on a concrete tied input the ties clause is
discharged — the tied pair stays in first-encounter order inside
`value_counts` — together with the length bound. -/
theorem C4_top_players_witness :
    ((2 : Nat) = 2) ∧
    List.Sublist [("Beta", 2), ("Alpha", 2)]
      (value_counts (ballsTie.map BallEvent.batter)) ∧
    (top_batters ballsTie).length ≤ 10 :=
  ⟨rfl,
   (C4_top_players ballsTie).1.2.2.2.2.2 ("Beta", 2) ("Alpha", 2) rfl (by decide),
   (C4_top_players ballsTie).1.1⟩
